import Mathlib

/-
Shallow embedding of the task status-transition and notification-fanout
subsystem of the multi-tenant task management backend.

Sources embedded:
  * src/backend/routes/tasks.js        (STATUS_FLOW, isValidTransition,
                                        PUT /tasks/:id, PATCH /tasks/:id/assign,
                                        logActivity)
  * src/backend/routes/comments.js     (resolveMentions, POST /comments)
  * src/backend/services/notificationService.js (create + trigger helpers)

Modelling conventions:
  * Mongo ObjectIds are Nat; `String(x)` comparisons on ids become Option Nat
    equality (String() is injective on ids and maps null to "null", which no
    id equals).
  * Dates are Nat timestamps; `new Date()` is an explicit `now` parameter.
  * Request bodies use Option for absent-vs-present fields; fields that
    distinguish undefined / null / value use Option (Option Nat).
  * Side effects are recorded as an ordered trace of `Event`s; promise
    rejections of best-effort collaborators are injected through a `Faults`
    record: a rejection that the source catches locally leaves the flow
    intact, one that the source does not catch aborts the handler with
    `Outcome.exc` (express forwards it to the error middleware), keeping the
    partial trace of effects already performed.
  * The route-level lookup of the task (404 when not found / other tenant)
    and the `permit` role gate happen before the embedded handlers run; the
    handlers are therefore parameterised directly by the found task and the
    acting user.
-/

namespace TaskMgr

inductive Status
  | TODO
  | IN_PROGRESS
  | IN_REVIEW
  | DONE
  | BLOCKER
deriving DecidableEq, Repr

inductive Role
  | ADMIN
  | MANAGER
  | MEMBER
deriving DecidableEq, Repr

inductive Priority
  | LOW
  | MEDIUM
  | HIGH
  | URGENT
deriving DecidableEq, Repr

inductive NotifType
  | TASK_ASSIGNED
  | TASK_STATUS_CHANGED
  | COMMENT_ADDED
  | COMMENT_MENTIONED
deriving DecidableEq, Repr

/-- String rendering of a status, as it appears in messages built by
template literals in tasks.js. -/
def statusName : Status → String
  | .TODO => "TODO"
  | .IN_PROGRESS => "IN_PROGRESS"
  | .IN_REVIEW => "IN_REVIEW"
  | .DONE => "DONE"
  | .BLOCKER => "BLOCKER"

/-- Transition table STATUS_FLOW of src/backend/routes/tasks.js lines 20-26. -/
def STATUS_FLOW : Status → List Status
  | .TODO => [.IN_PROGRESS]
  | .IN_PROGRESS => [.IN_REVIEW, .TODO, .BLOCKER]
  | .IN_REVIEW => [.DONE, .IN_PROGRESS, .BLOCKER]
  | .DONE => [.TODO]
  | .BLOCKER => [.TODO, .IN_PROGRESS]

/-- isValidTransition of tasks.js lines 28-30. -/
def isValidTransition (a b : Status) : Bool :=
  (STATUS_FLOW a).contains b

/-- Task document (models/Task.js schema fields used by the routes). -/
structure Task where
  id : Nat
  companyId : Nat
  title : String
  description : String
  status : Status
  priority : Priority
  assignedTo : Option Nat
  createdBy : Option Nat
  dueDate : Option Nat
  completedAt : Option Nat
deriving DecidableEq, Repr

/-- User document fields consumed by the embedded handlers. -/
structure User where
  id : Nat
  name : String
  companyId : Nat
  role : Role
deriving DecidableEq, Repr

/-- Structured metadata blobs passed to ActivityLog.create by the routes. -/
inductive LogMeta
  | statusChange (a b : Status)
  | assignedMeta (assignee : Option Nat)
  | commentMeta (taskId : Nat) (mentionCount : Nat)
deriving DecidableEq, Repr

/-- ActivityLog document as created by logActivity in tasks.js / comments.js. -/
structure ActivityEntry where
  action : String
  description : String
  companyId : Nat
  performedBy : Nat
  targetType : String
  targetId : Nat
  metadata : Option LogMeta
deriving DecidableEq, Repr

/-- Notification document as created by notificationService create(). -/
structure NotificationRec where
  recipient : Nat
  ntype : NotifType
  message : String
  companyId : Nat
  triggeredBy : Nat
  relatedType : Option String
  relatedId : Option Nat
deriving DecidableEq, Repr

/-- Comment document as created by POST /comments. -/
structure CommentRec where
  id : Nat
  text : String
  taskId : Nat
  companyId : Nat
  author : Nat
  mentions : List Nat
deriving DecidableEq, Repr

/-- One observable storage or delivery effect, in the order the handler
performs it. -/
inductive Event
  | saveTask (t : Task)
  | saveComment (c : CommentRec)
  | logEntry (e : ActivityEntry)
  | notifRecord (n : NotificationRec)
  | rtEmit (recipient : Nat)
  | emailSend (recipient : Nat)
deriving DecidableEq, Repr

/-- Which collaborator promise rejections to inject. -/
structure Faults where
  logCreateFails : Bool
  notifCreateFails : Bool
  emitFails : Bool
  emailFails : Bool
deriving DecidableEq, Repr

def noFaults : Faults := ⟨false, false, false, false⟩

/-- HTTP error responses the handlers can return, tagged by the error
taxonomy kind of the call site. -/
inductive ErrResponse
  | notFound (message : String)
  | forbidden (message : String)
  | invalidTransition (message : String)
  | invalidOperation (message : String)
deriving DecidableEq, Repr

/-- Result of a handler: a successful JSON response, an error response, or
an uncaught exception forwarded to the express error middleware. -/
inductive Outcome (α : Type)
  | ok (a : α)
  | err (e : ErrResponse)
  | exc
deriving DecidableEq, Repr

/-- The comma-joined allowed-targets list STATUS_FLOW[task.status].join(', '). -/
def allowedListStr (s : Status) : String :=
  String.intercalate ", " ((STATUS_FLOW s).map statusName)

/-- The template literal of tasks.js lines 386 and 436. -/
def invalidTransitionMsg (a b : Status) : String :=
  ("Invalid status transition: " ++ statusName a ++ " → " ++ statusName b
    ++ ". Allowed: ") ++ allowedListStr a

/-- notificationService create(): suppresses self-notification, persists the
record, emits to the recipient's socket room, and fire-and-forgets an email
(whose own failure is caught inside sendNotificationEmail). Returns the
persisted record, the effect trace, and whether control returned normally
(false = a rejection escaped to the awaiting caller). -/
def notifCreate (f : Faults) (n : NotificationRec) :
    Option NotificationRec × List Event × Bool :=
  if n.recipient = n.triggeredBy then (none, [], true)
  else if f.notifCreateFails then (none, [], false)
  else if f.emitFails then (none, [Event.notifRecord n], false)
  else (some n, [Event.notifRecord n, Event.rtEmit n.recipient,
                 Event.emailSend n.recipient], true)

/-- notify.taskStatusChanged trigger helper. -/
def taskStatusChangedArgs (task : Task) (oldS newS : Status) (actor : User)
    (notifyUserId : Nat) : NotificationRec :=
  { recipient := notifyUserId
    ntype := .TASK_STATUS_CHANGED
    message := actor.name ++ " moved \"" ++ task.title ++ "\" from "
      ++ statusName oldS ++ " to " ++ statusName newS
    companyId := actor.companyId
    triggeredBy := actor.id
    relatedType := some "Task"
    relatedId := some task.id }

/-- notify.taskAssigned trigger helper. -/
def taskAssignedArgs (task : Task) (assignedToId : Nat) (actor : User) :
    NotificationRec :=
  { recipient := assignedToId
    ntype := .TASK_ASSIGNED
    message := actor.name ++ " assigned you to \"" ++ task.title ++ "\""
    companyId := actor.companyId
    triggeredBy := actor.id
    relatedType := some "Task"
    relatedId := some task.id }

/-- notify.commentAdded trigger helper. -/
def commentAddedArgs (task : Task) (actor : User) (notifyUserId : Nat) :
    NotificationRec :=
  { recipient := notifyUserId
    ntype := .COMMENT_ADDED
    message := actor.name ++ " commented on \"" ++ task.title ++ "\""
    companyId := actor.companyId
    triggeredBy := actor.id
    relatedType := some "Task"
    relatedId := some task.id }

/-- notify.commentMentioned trigger helper. -/
def commentMentionedArgs (task : Task) (actor : User) (mentionedUserId : Nat) :
    NotificationRec :=
  { recipient := mentionedUserId
    ntype := .COMMENT_MENTIONED
    message := actor.name ++ " mentioned you in a comment on \""
      ++ task.title ++ "\""
    companyId := actor.companyId
    triggeredBy := actor.id
    relatedType := some "Task"
    relatedId := some task.id }

/-- logActivity of tasks.js lines 38-49 / comments.js lines 46-57: the
.catch on ActivityLog.create swallows a rejection, so a failed write emits
no record but never throws. -/
def logActivity (f : Faults) (action : String) (user : User)
    (targetType : String) (targetId : Nat) (description : String)
    (metadata : Option LogMeta) : List Event :=
  if f.logCreateFails then []
  else [Event.logEntry
    { action := action, description := description,
      companyId := user.companyId, performedBy := user.id,
      targetType := targetType, targetId := targetId, metadata := metadata }]

/-- The completedAt bookkeeping block, identical at tasks.js lines 398-402
and 442-446, run after `task.status` has been set to the new status. -/
def settleCompletedAt (t : Task) (now : Nat) : Task :=
  if t.status = Status.DONE ∧ t.completedAt = none then
    { t with completedAt := some now }
  else if t.status ≠ Status.DONE ∧ t.completedAt ≠ none then
    { t with completedAt := none }
  else t

/-- User.findOne({_id, companyId}) on the users collection. -/
def findUser (db : List User) (uid : Nat) (companyId : Nat) : Option User :=
  db.find? (fun u => u.id == uid && u.companyId == companyId)

/-- Body of PUT /tasks/:id; each field is absent or present, with
assignedTo / dueDate additionally distinguishing an explicit null. -/
structure UpdateBody where
  title : Option String
  description : Option String
  status : Option Status
  priority : Option Priority
  assignedTo : Option (Option Nat)
  dueDate : Option (Option Nat)
deriving DecidableEq, Repr

/-- A body that requests only a status change. -/
def mkStatusBody (s : Status) : UpdateBody :=
  ⟨none, none, some s, none, none, none⟩

/-- A body that requests only an assignee value. -/
def mkAssignBody (a : Option Nat) : UpdateBody :=
  ⟨none, none, none, none, some a, none⟩

/-- MEMBER branch of PUT /tasks/:id (tasks.js lines 378-422). -/
def memberUpdate (f : Faults) (user : User) (task : Task) (body : UpdateBody)
    (now : Nat) : Outcome Task × List Event :=
  if task.assignedTo ≠ some user.id then
    (Outcome.err (ErrResponse.forbidden
      "You can only update tasks assigned to you"), [])
  else
    match body.status with
    | some s =>
      if ¬ (isValidTransition task.status s = true) then
        (Outcome.err (ErrResponse.invalidTransition
          (invalidTransitionMsg task.status s)), [])
      else if task.status = Status.BLOCKER then
        (Outcome.err (ErrResponse.forbidden
          "Only managers or admins can resolve blocked tasks"), [])
      else
        let oldS := task.status
        let t := settleCompletedAt { task with status := s } now
        let evsLog := logActivity f "TASK_STATUS_CHANGED" user "Task" task.id
          ("Status changed from " ++ statusName oldS ++ " to " ++ statusName s)
          (some (LogMeta.statusChange oldS s))
        match task.createdBy with
        | some c =>
          let r := notifCreate f (taskStatusChangedArgs t oldS s user c)
          ((if r.2.2 then Outcome.ok t else Outcome.exc),
            Event.saveTask t :: (evsLog ++ r.2.1))
        | none => (Outcome.ok t, Event.saveTask t :: evsLog)
    | none =>
      (Outcome.err (ErrResponse.invalidOperation
        "Members can only update task status"), [])

/-- In-memory field assignments of tasks.js lines 427-430. -/
def applyFieldUpdates (task : Task) (body : UpdateBody) : Task :=
  { task with
    title := body.title.getD task.title
    description := body.description.getD task.description
    priority := body.priority.getD task.priority
    dueDate := body.dueDate.getD task.dueDate }

/-- The two sequential awaits on notify.taskStatusChanged in the admin
branch (tasks.js lines 453-464): assignee first, then creator when distinct
from the assignee; the second runs only if the first did not throw. -/
def adminStatusNotifs (f : Faults) (t1 : Task) (oldS newS : Status)
    (user : User) : List Event × Bool :=
  let first : List Event × Bool :=
    match t1.assignedTo with
    | some a =>
      let r := notifCreate f (taskStatusChangedArgs t1 oldS newS user a)
      (r.2.1, r.2.2)
    | none => ([], true)
  if first.2 then
    let second : List Event × Bool :=
      match t1.createdBy with
      | some c =>
        if some c ≠ t1.assignedTo then
          let r := notifCreate f (taskStatusChangedArgs t1 oldS newS user c)
          (r.2.1, r.2.2)
        else ([], true)
      | none => ([], true)
    (first.1 ++ second.1, second.2)
  else first

/-- Assignment block of the admin branch (tasks.js lines 467-483): guarded
by `assignedTo !== undefined && String(assignedTo) !== String(task.assignedTo)`;
validates the assignee, mutates in memory, logs, notifies. No save yet. -/
def adminAssignBlock (f : Faults) (user : User) (t1 : Task)
    (bodyAssignedTo : Option (Option Nat)) (db : List User) :
    Outcome Task × List Event :=
  match bodyAssignedTo with
  | none => (Outcome.ok t1, [])
  | some newA =>
    if newA = t1.assignedTo then (Outcome.ok t1, [])
    else
      match newA with
      | some a =>
        match findUser db a user.companyId with
        | none =>
          (Outcome.err (ErrResponse.notFound
            "Assignee not found in your company"), [])
        | some _ =>
          let t2 := { t1 with assignedTo := some a }
          let evsLog := logActivity f "TASK_ASSIGNED" user "Task" t1.id
            ("Task \"" ++ t2.title ++ "\" reassigned")
            (some (LogMeta.assignedMeta (some a)))
          let r := notifCreate f (taskAssignedArgs t2 a user)
          ((if r.2.2 then Outcome.ok t2 else Outcome.exc), evsLog ++ r.2.1)
      | none =>
        let t2 := { t1 with assignedTo := none }
        let evsLog := logActivity f "TASK_ASSIGNED" user "Task" t1.id
          ("Task \"" ++ t2.title ++ "\" reassigned")
          (some (LogMeta.assignedMeta none))
        (Outcome.ok t2, evsLog)

/-- Tail of the admin branch: assignment block followed by the final
`await task.save()` of tasks.js line 485. -/
def adminFinish (f : Faults) (user : User) (t1 : Task) (evs1 : List Event)
    (bodyAssignedTo : Option (Option Nat)) (db : List User) :
    Outcome Task × List Event :=
  match adminAssignBlock f user t1 bodyAssignedTo db with
  | (Outcome.ok t2, evs2) =>
    (Outcome.ok t2, evs1 ++ evs2 ++ [Event.saveTask t2])
  | (o, evs2) => (o, evs1 ++ evs2)

/-- ADMIN / MANAGER branch of PUT /tasks/:id (tasks.js lines 424-488). Note
that the status section checks `status !== task.status` before consulting
the transition table, and that the activity log and the notifications are
awaited before the final task.save(). -/
def adminUpdate (f : Faults) (user : User) (task : Task) (body : UpdateBody)
    (db : List User) (now : Nat) : Outcome Task × List Event :=
  let t0 := applyFieldUpdates task body
  match body.status with
  | some s =>
    if s = task.status then adminFinish f user t0 [] body.assignedTo db
    else if isValidTransition task.status s then
      let t1 := settleCompletedAt { t0 with status := s } now
      let evsLog := logActivity f "TASK_STATUS_CHANGED" user "Task" task.id
        ("Status changed from " ++ statusName task.status ++ " to "
          ++ statusName s)
        (some (LogMeta.statusChange task.status s))
      let r := adminStatusNotifs f t1 task.status s user
      if r.2 then adminFinish f user t1 (evsLog ++ r.1) body.assignedTo db
      else (Outcome.exc, evsLog ++ r.1)
    else
      (Outcome.err (ErrResponse.invalidTransition
        (invalidTransitionMsg task.status s)), [])
  | none => adminFinish f user t0 [] body.assignedTo db

/-- PUT /tasks/:id after the task has been found in the caller's tenant:
the MEMBER branch or the full-update branch. -/
def putTask (f : Faults) (user : User) (task : Task) (body : UpdateBody)
    (db : List User) (now : Nat) : Outcome Task × List Event :=
  if user.role = Role.MEMBER then memberUpdate f user task body now
  else adminUpdate f user task body db now

/-- PATCH /tasks/:id/assign (tasks.js lines 532-568) after the task has
been found: validate assignee, set, save, log, notify. `assignedTo` is the
request value with `assignedTo || null` collapsing absent/null/falsy to
none. -/
def patchAssign (f : Faults) (user : User) (task : Task)
    (assignedTo : Option Nat) (db : List User) : Outcome Task × List Event :=
  match assignedTo with
  | some a =>
    match findUser db a user.companyId with
    | none =>
      (Outcome.err (ErrResponse.notFound
        "Assignee not found in your company"), [])
    | some _ =>
      let t2 := { task with assignedTo := some a }
      let evsLog := logActivity f "TASK_ASSIGNED" user "Task" task.id
        ("Task \"" ++ t2.title ++ "\" assigned")
        (some (LogMeta.assignedMeta (some a)))
      let r := notifCreate f (taskAssignedArgs t2 a user)
      ((if r.2.2 then Outcome.ok t2 else Outcome.exc),
        Event.saveTask t2 :: (evsLog ++ r.2.1))
  | none =>
    let t2 := { task with assignedTo := none }
    (Outcome.ok t2,
      Event.saveTask t2 :: logActivity f "TASK_ASSIGNED" user "Task" task.id
        ("Task \"" ++ t2.title ++ "\" unassigned")
        (some (LogMeta.assignedMeta none)))

/-- JS \w character class: ASCII letters, digits, underscore. -/
def wordChar (c : Char) : Bool :=
  c.isAlpha || c.isDigit || c = '_'

/-- The quoted alternative @"([^"]+)" of the mention regex, tried on the
text following an '@': requires an opening quote, at least one non-quote
character, and a closing quote; yields the captured name and the remaining
text after the closing quote. -/
def quotedToken : List Char → Option (String × List Char)
  | [] => none
  | c :: rest2 =>
    if c = '"' then
      match rest2.dropWhile (· ≠ '"') with
      | _ :: rest3 =>
        if rest2.takeWhile (· ≠ '"') ≠ [] then
          some (String.mk (rest2.takeWhile (· ≠ '"')), rest3)
        else none
      | [] => none
    else none

/-- The single-token alternative @(\w+) of the mention regex, tried on the
text following an '@': a maximal non-empty run of word characters. -/
def wordToken (l : List Char) : Option (String × List Char) :=
  if l.takeWhile wordChar ≠ [] then
    some (String.mk (l.takeWhile wordChar), l.dropWhile wordChar)
  else none

/-- Left-to-right scan of comment text with the regex
/@"([^"]+)"|@(\w+)/g of resolveMentions (comments.js line 25): at each '@'
the quoted full-name alternative is tried first, then the single-token
alternative; on failure the engine advances one character. Every step
consumes at least one character, so with `fuel` initialised to the text
length the scan always processes the whole text. -/
def extractNamesFuel : Nat → List Char → List String
  | 0, _ => []
  | _, [] => []
  | fuel + 1, c :: rest =>
    if c = '@' then
      match quotedToken rest with
      | some (s, rest') => s :: extractNamesFuel fuel rest'
      | none =>
        match wordToken rest with
        | some (s, rest') => s :: extractNamesFuel fuel rest'
        | none => extractNamesFuel fuel rest
    else extractNamesFuel fuel rest

def extractNames (cs : List Char) : List String :=
  extractNamesFuel cs.length cs

/-- Case-insensitive full-string match: the source builds the anchored
regex ^escaped-name$ with the i flag, i.e. exact equality up to case
(modelled character-wise by lowercasing both sides). -/
def lowerEq (a b : String) : Bool :=
  a.data.map Char.toLower == b.data.map Char.toLower

/-- Insertion-order de-duplication, as performed by [...new Set(ids)]. -/
def dedupFirst (seen : List Nat) : List Nat → List Nat
  | [] => []
  | x :: xs =>
    if x ∈ seen then dedupFirst seen xs
    else x :: dedupFirst (x :: seen) xs

/-- resolveMentions of comments.js lines 24-44: extract mention tokens,
match each case-insensitively against the full name of the tenant's
members, and return the de-duplicated list of matching member ids. -/
def resolveMentions (text : String) (companyId : Nat) (db : List User) :
    List Nat :=
  let names := extractNames text.data
  if names = [] then []
  else
    let users := db.filter
      (fun u => u.companyId == companyId && names.any (fun n => lowerEq u.name n))
    dedupFirst [] (users.map (·.id))

/-- The alreadyNotified set of comments.js lines 183-187:
[task.assignedTo, task.createdBy, req.user._id].filter(Boolean). -/
def alreadyNotified (task : Task) (user : User) : List Nat :=
  [task.assignedTo, task.createdBy, some user.id].filterMap id

/-- The mentioned ids that survive the alreadyNotified check of the
fanout loop and the self-suppression inside create(). -/
def mentionPending (uid : Nat) (listed : List Nat) (pending : List Nat) :
    List Nat :=
  pending.filter (fun m => decide (m ∉ listed ∧ m ≠ uid))

/-- The sequential mention-notification loop of comments.js lines 188-194;
each awaited notify.commentMentioned can reject and abort the loop. -/
def mentionNotifs (f : Faults) (user : User) (task : Task)
    (listed : List Nat) : List Nat → List Event × Bool
  | [] => ([], true)
  | m :: rest =>
    if m ∈ listed then mentionNotifs f user task listed rest
    else
      let r := notifCreate f (commentMentionedArgs task user m)
      if r.2.2 then
        let r2 := mentionNotifs f user task listed rest
        (r.2.1 ++ r2.1, r2.2)
      else (r.2.1, false)

/-- POST /comments (comments.js lines 144-201) after the task has been
found in the caller's tenant: resolve mentions, create the comment, log,
then fan out COMMENT_ADDED to assignee and creator and COMMENT_MENTIONED
to mentioned members not already notified. `newId` is the id Mongo assigns
to the created comment. -/
def postComment (f : Faults) (user : User) (task : Task) (newId : Nat)
    (text : String) (db : List User) : Outcome CommentRec × List Event :=
  let mentions := resolveMentions text user.companyId db
  let c : CommentRec :=
    { id := newId, text := text, taskId := task.id,
      companyId := user.companyId, author := user.id, mentions := mentions }
  let evsLog := logActivity f "COMMENT_ADDED" user "Comment" newId
    ("Comment added on task \"" ++ task.title ++ "\"")
    (some (LogMeta.commentMeta task.id mentions.length))
  let first : List Event × Bool :=
    match task.assignedTo with
    | some a =>
      let r := notifCreate f (commentAddedArgs task user a)
      (r.2.1, r.2.2)
    | none => ([], true)
  if first.2 then
    let second : List Event × Bool :=
      match task.createdBy with
      | some cr =>
        if some cr ≠ task.assignedTo then
          let r := notifCreate f (commentAddedArgs task user cr)
          (r.2.1, r.2.2)
        else ([], true)
      | none => ([], true)
    if second.2 then
      let third := mentionNotifs f user task (alreadyNotified task user) mentions
      ((if third.2 then Outcome.ok c else Outcome.exc),
        Event.saveComment c :: (evsLog ++ first.1 ++ second.1 ++ third.1))
    else (Outcome.exc, Event.saveComment c :: (evsLog ++ first.1 ++ second.1))
  else (Outcome.exc, Event.saveComment c :: (evsLog ++ first.1))

/-- The (recipient, type) pairs of the notification records in a trace. -/
def notifRecsOf : List Event → List (Nat × NotifType)
  | [] => []
  | Event.notifRecord n :: rest => (n.recipient, n.ntype) :: notifRecsOf rest
  | _ :: rest => notifRecsOf rest

/-- Whether an event is a log or notification write. -/
def isWriteEvent : Event → Bool
  | .logEntry _ => true
  | .notifRecord _ => true
  | _ => false

/-- Whether every log / notification write in the trace comes after the
first committed task save. -/
def savedBeforeWrites : List Event → Bool
  | [] => true
  | Event.saveTask _ :: _ => true
  | e :: rest => if isWriteEvent e then false else savedBeforeWrites rest

theorem settle_status (t : Task) (now : Nat) :
    (settleCompletedAt t now).status = t.status := by
  unfold settleCompletedAt
  split
  · rfl
  · split <;> rfl

theorem settle_isSome (t : Task) (now : Nat) :
    (settleCompletedAt t now).completedAt.isSome ↔ t.status = Status.DONE := by
  unfold settleCompletedAt
  split
  · rename_i hc
    simp [hc.1]
  · split
    · rename_i hc1 hc2
      simp [hc2.1]
    · rename_i hc1 hc2
      by_cases hd : t.status = Status.DONE
      · have : t.completedAt ≠ none := fun hn => hc1 ⟨hd, hn⟩
        simp [hd, Option.isSome_iff_ne_none, this]
      · have : t.completedAt = none := by
          by_contra hn
          exact hc2 ⟨hd, hn⟩
        simp [hd, this]

theorem settle_done_new (t : Task) (now : Nat)
    (h1 : t.status = Status.DONE) (h2 : t.completedAt = none) :
    (settleCompletedAt t now).completedAt = some now := by
  unfold settleCompletedAt
  rw [if_pos ⟨h1, h2⟩]

theorem settle_not_done (t : Task) (now : Nat) (h : t.status ≠ Status.DONE) :
    (settleCompletedAt t now).completedAt = none := by
  unfold settleCompletedAt
  split
  · rename_i hc
    exact absurd hc.1 h
  · split
    · rfl
    · rename_i hc1 hc2
      by_contra hn
      exact hc2 ⟨h, hn⟩

theorem settle_frame (t : Task) (now : Nat) :
    (settleCompletedAt t now).id = t.id ∧
    (settleCompletedAt t now).companyId = t.companyId ∧
    (settleCompletedAt t now).title = t.title ∧
    (settleCompletedAt t now).description = t.description ∧
    (settleCompletedAt t now).priority = t.priority ∧
    (settleCompletedAt t now).assignedTo = t.assignedTo ∧
    (settleCompletedAt t now).createdBy = t.createdBy ∧
    (settleCompletedAt t now).dueDate = t.dueDate := by
  unfold settleCompletedAt
  split
  · exact ⟨rfl, rfl, rfl, rfl, rfl, rfl, rfl, rfl⟩
  · split <;> exact ⟨rfl, rfl, rfl, rfl, rfl, rfl, rfl, rfl⟩

theorem adminAssignBlock_ok_frame (f : Faults) (user : User) (t1 : Task)
    (bA : Option (Option Nat)) (db : List User) (t2 : Task)
    (h : (adminAssignBlock f user t1 bA db).1 = Outcome.ok t2) :
    t2.status = t1.status ∧ t2.completedAt = t1.completedAt ∧
    t2.title = t1.title ∧ t2.description = t1.description ∧
    t2.priority = t1.priority ∧ t2.dueDate = t1.dueDate := by
  unfold adminAssignBlock at h
  split at h
  · cases h
    exact ⟨rfl, rfl, rfl, rfl, rfl, rfl⟩
  · split at h
    · cases h
      exact ⟨rfl, rfl, rfl, rfl, rfl, rfl⟩
    · split at h
      · split at h
        · simp at h
        · simp only [] at h
          split at h
          · cases h
            exact ⟨rfl, rfl, rfl, rfl, rfl, rfl⟩
          · simp at h
      · simp only [] at h
        cases h
        exact ⟨rfl, rfl, rfl, rfl, rfl, rfl⟩

theorem adminFinish_ok (f : Faults) (user : User) (t1 : Task)
    (evs1 : List Event) (bA : Option (Option Nat)) (db : List User)
    (t2 : Task) (h : (adminFinish f user t1 evs1 bA db).1 = Outcome.ok t2) :
    (adminAssignBlock f user t1 bA db).1 = Outcome.ok t2 := by
  unfold adminFinish at h
  split at h <;> simp_all

/-- C1 counterexample: the claim demands an InvalidTransition failure for
EVERY actor whenever (status, requested) is not an edge, including the
self-loop case. For an ADMIN actor requesting the task's current status
(TODO → TODO, not an edge), PUT /tasks/:id succeeds as a plain no-change
update instead of failing. -/
theorem c1_self_loop_admin_succeeds :
    isValidTransition Status.TODO Status.TODO = false ∧
    putTask noFaults ⟨9, "Adm", 7, Role.ADMIN⟩
      ⟨100, 7, "T", "", Status.TODO, Priority.MEDIUM, some 1, some 2, none, none⟩
      (mkStatusBody Status.TODO) [] 5 =
      (Outcome.ok
        ⟨100, 7, "T", "", Status.TODO, Priority.MEDIUM, some 1, some 2, none, none⟩,
       [Event.saveTask
        ⟨100, 7, "T", "", Status.TODO, Priority.MEDIUM, some 1, some 2, none, none⟩]) := by
  constructor
  · rfl
  · rfl

/-- C1 (amended): a requested status outside the transition table is
rejected with InvalidTransition, the message ending in the comma-joined
list of targets allowed from the current status, and with no save, log or
notification — for a MEMBER actor who is the assignee (for any requested
target, the self-loop included), and for an ADMIN/MANAGER actor whenever
the requested target differs from the current status (an ADMIN/MANAGER
request equal to the current status is treated as no status change, and a
MEMBER who is not the assignee fails earlier with Forbidden). -/
theorem c1_invalid_transition_rejected (f : Faults) (user : User)
    (task : Task) (body : UpdateBody) (db : List User) (now : Nat)
    (s : Status) (hs : body.status = some s)
    (hinv : isValidTransition task.status s = false)
    (hrole : (user.role = Role.MEMBER ∧ task.assignedTo = some user.id) ∨
             (user.role ≠ Role.MEMBER ∧ s ≠ task.status)) :
    putTask f user task body db now =
      (Outcome.err (ErrResponse.invalidTransition
        (invalidTransitionMsg task.status s)), []) ∧
    ∃ p, invalidTransitionMsg task.status s = p ++ allowedListStr task.status := by
  refine ⟨?_, ⟨_, rfl⟩⟩
  rcases hrole with ⟨hm, ha⟩ | ⟨hm, hne⟩
  · simp [putTask, memberUpdate, hm, ha, hs, hinv]
  · simp [putTask, adminUpdate, hm, hs, hinv, hne]

/-- C1 witness. -/
theorem c1_invalid_transition_rejected_witness :
    putTask noFaults ⟨1, "Mem", 7, Role.MEMBER⟩
      ⟨100, 7, "T", "", Status.TODO, Priority.MEDIUM, some 1, some 2, none, none⟩
      (mkStatusBody Status.DONE) [] 5 =
      (Outcome.err (ErrResponse.invalidTransition
        (invalidTransitionMsg Status.TODO Status.DONE)), []) ∧
    ∃ p, invalidTransitionMsg Status.TODO Status.DONE =
      p ++ allowedListStr Status.TODO :=
  c1_invalid_transition_rejected noFaults ⟨1, "Mem", 7, Role.MEMBER⟩
    ⟨100, 7, "T", "", Status.TODO, Priority.MEDIUM, some 1, some 2, none, none⟩
    (mkStatusBody Status.DONE) [] 5 Status.DONE rfl (by decide)
    (Or.inl ⟨rfl, rfl⟩)

/-- C2: after any successful PUT /tasks/:id call that performs a status
transition, the returned task has its requested status, completedAt is
non-null exactly when the new status is DONE, a transition into DONE with
completedAt previously unset stamps the current time, and a transition
into any non-DONE status clears completedAt. -/
theorem c2_completedAt_iff_done (f : Faults) (user : User) (task : Task)
    (body : UpdateBody) (db : List User) (now : Nat) (s : Status) (t' : Task)
    (hok : (putTask f user task body db now).1 = Outcome.ok t')
    (hs : body.status = some s) (hne : s ≠ task.status) :
    t'.status = s ∧
    (t'.completedAt.isSome ↔ t'.status = Status.DONE) ∧
    (s = Status.DONE → task.completedAt = none → t'.completedAt = some now) ∧
    (s ≠ Status.DONE → t'.completedAt = none) := by
  unfold putTask at hok
  split at hok
  · -- MEMBER branch
    unfold memberUpdate at hok
    split at hok
    · simp at hok
    · rw [hs] at hok
      simp only [] at hok
      split at hok
      · simp at hok
      · split at hok
        · simp at hok
        · rename_i hval hblk
          split at hok
          · -- createdBy = some c
            simp only [] at hok
            split at hok
            · rename_i hflag
              cases hok
              refine ⟨?_, ?_, ?_, ?_⟩
              · rw [settle_status]
              · rw [settle_isSome, settle_status]
              · intro hd hnone
                exact settle_done_new _ now (by simpa using hd) (by simpa using hnone)
              · intro hd
                exact settle_not_done _ now (by simpa using hd)
            · simp at hok
          · -- createdBy = none
            cases hok
            refine ⟨?_, ?_, ?_, ?_⟩
            · rw [settle_status]
            · rw [settle_isSome, settle_status]
            · intro hd hnone
              exact settle_done_new _ now (by simpa using hd) (by simpa using hnone)
            · intro hd
              exact settle_not_done _ now (by simpa using hd)
  · -- ADMIN / MANAGER branch
    unfold adminUpdate at hok
    rw [hs] at hok
    simp only [] at hok
    split at hok
    · exact absurd (by assumption) hne
    · split at hok
      · split at hok
        · -- assignment block ran after a successful status section
          have hblock := adminFinish_ok _ _ _ _ _ _ _ hok
          have hframe := adminAssignBlock_ok_frame _ _ _ _ _ _ hblock
          obtain ⟨hst, hca, -⟩ := hframe
          have hst1 : t'.status = s := by
            rw [hst, settle_status]
          refine ⟨hst1, ?_, ?_, ?_⟩
          · rw [hca, hst1, settle_isSome]
          · intro hd hnone
            rw [hca]
            exact settle_done_new _ now (by simpa [applyFieldUpdates] using hd)
              (by simpa [applyFieldUpdates] using hnone)
          · intro hd
            rw [hca]
            exact settle_not_done _ now (by simpa [applyFieldUpdates] using hd)
        · simp at hok
      · simp at hok

theorem notifCreate_flag (f : Faults) (n : NotificationRec)
    (h1 : f.notifCreateFails = false) (h2 : f.emitFails = false) :
    (notifCreate f n).2.2 = true := by
  unfold notifCreate
  rw [h1, h2]
  split
  · rfl
  · rfl

theorem adminStatusNotifs_flag (f : Faults) (t1 : Task) (oldS newS : Status)
    (user : User) (h1 : f.notifCreateFails = false) (h2 : f.emitFails = false) :
    (adminStatusNotifs f t1 oldS newS user).2 = true := by
  unfold adminStatusNotifs
  split
  · rename_i a heq
    simp only [notifCreate_flag f _ h1 h2, if_true]
    split
    · split
      · simp [notifCreate_flag f _ h1 h2]
      · rfl
    · rfl
  · simp only [if_true]
    split
    · split
      · simp [notifCreate_flag f _ h1 h2]
      · rfl
    · rfl

/-- C2 witness: a MEMBER assignee moving an IN_REVIEW task to DONE gets
completedAt stamped with the current time. -/
theorem c2_completedAt_iff_done_witness :
    ((putTask noFaults ⟨1, "Mem", 7, Role.MEMBER⟩
        ⟨100, 7, "T", "", Status.IN_REVIEW, Priority.MEDIUM, some 1, some 2, none, none⟩
        (mkStatusBody Status.DONE) [] 5).1 =
      Outcome.ok
        ⟨100, 7, "T", "", Status.DONE, Priority.MEDIUM, some 1, some 2, none, some 5⟩) ∧
    (Status.DONE = Status.DONE ∧
      (some 5 : Option Nat).isSome = true ∧
      (some 5 : Option Nat) = some 5) := by
  have h := c2_completedAt_iff_done noFaults ⟨1, "Mem", 7, Role.MEMBER⟩
    ⟨100, 7, "T", "", Status.IN_REVIEW, Priority.MEDIUM, some 1, some 2, none, none⟩
    (mkStatusBody Status.DONE) [] 5 Status.DONE
    ⟨100, 7, "T", "", Status.DONE, Priority.MEDIUM, some 1, some 2, none, some 5⟩
    (by decide) rfl (by decide)
  exact ⟨by decide, h.1, by simp, h.2.2.1 rfl rfl⟩

/-- C3 counterexample: the claim says a MEMBER always gets Forbidden on a
BLOCKER task, whatever the target. A MEMBER assignee requesting
BLOCKER → DONE (not an edge) gets InvalidTransition instead, because the
transition-table check runs before the BLOCKER role gate. -/
theorem c3_blocker_member_invalid_target_gets_invalid_transition :
    (putTask noFaults ⟨1, "Mem", 7, Role.MEMBER⟩
      ⟨100, 7, "T", "", Status.BLOCKER, Priority.MEDIUM, some 1, some 2, none, none⟩
      (mkStatusBody Status.DONE) [] 5).1 =
      Outcome.err (ErrResponse.invalidTransition
        (invalidTransitionMsg Status.BLOCKER Status.DONE)) := by
  rfl

/-- C3 (amended): a MEMBER assignee can never move a BLOCKER task: a
target that is a valid edge out of BLOCKER (TODO, IN_PROGRESS) fails with
Forbidden, while a target that is not an edge fails with
InvalidTransition; either way the task is unchanged and nothing is logged
or notified. The same valid-edge transition by an ADMIN succeeds. -/
theorem c3_blocker_member_gate (f : Faults) (user : User) (task : Task)
    (body : UpdateBody) (db : List User) (now : Nat) (s : Status)
    (hm : user.role = Role.MEMBER) (ha : task.assignedTo = some user.id)
    (hb : task.status = Status.BLOCKER) (hs : body.status = some s) :
    (isValidTransition Status.BLOCKER s = true →
      putTask f user task body db now =
        (Outcome.err (ErrResponse.forbidden
          "Only managers or admins can resolve blocked tasks"), [])) ∧
    (isValidTransition Status.BLOCKER s = false →
      putTask f user task body db now =
        (Outcome.err (ErrResponse.invalidTransition
          (invalidTransitionMsg Status.BLOCKER s)), [])) ∧
    (∀ admin : User, admin.role = Role.ADMIN →
      isValidTransition Status.BLOCKER s = true →
      (putTask noFaults admin task (mkStatusBody s) db now).1 =
        Outcome.ok (settleCompletedAt { task with status := s } now)) := by
  refine ⟨?_, ?_, ?_⟩
  · intro hval
    simp [putTask, memberUpdate, hm, ha, hs, hb, hval]
  · intro hval
    simp [putTask, memberUpdate, hm, ha, hs, hb, hval]
  · intro admin hadmin hval
    have hsne : s ≠ task.status := by
      rw [hb]
      cases s <;> simp_all [isValidTransition, STATUS_FLOW]
    simp only [putTask, hadmin]
    simp only [reduceCtorEq, if_false]
    unfold adminUpdate
    simp only [mkStatusBody]
    rw [if_neg hsne, hb, hval]
    simp only [if_true]
    rw [adminStatusNotifs_flag noFaults _ _ _ _ rfl rfl]
    simp only [if_true]
    unfold adminFinish adminAssignBlock
    simp [hb, applyFieldUpdates]

/-- C3 witness: member BLOCKER → TODO (a valid edge) is Forbidden; the
same request from an ADMIN succeeds. -/
theorem c3_blocker_member_gate_witness :
    (putTask noFaults ⟨1, "Mem", 7, Role.MEMBER⟩
      ⟨100, 7, "T", "", Status.BLOCKER, Priority.MEDIUM, some 1, some 2, none, none⟩
      (mkStatusBody Status.TODO) [] 5 =
      (Outcome.err (ErrResponse.forbidden
        "Only managers or admins can resolve blocked tasks"), [])) ∧
    ((putTask noFaults ⟨9, "Adm", 7, Role.ADMIN⟩
      ⟨100, 7, "T", "", Status.BLOCKER, Priority.MEDIUM, some 1, some 2, none, none⟩
      (mkStatusBody Status.TODO) [] 5).1 =
      Outcome.ok (settleCompletedAt
        { (⟨100, 7, "T", "", Status.BLOCKER, Priority.MEDIUM, some 1, some 2,
            none, none⟩ : Task) with status := Status.TODO } 5)) := by
  have h := c3_blocker_member_gate noFaults ⟨1, "Mem", 7, Role.MEMBER⟩
    ⟨100, 7, "T", "", Status.BLOCKER, Priority.MEDIUM, some 1, some 2, none, none⟩
    (mkStatusBody Status.TODO) [] 5 Status.TODO rfl rfl rfl rfl
  exact ⟨h.1 (by decide), h.2.2 ⟨9, "Adm", 7, Role.ADMIN⟩ rfl (by decide)⟩

/-- C4 counterexample: the claim says a MEMBER assignee bundling a
non-status field with a status change gets InvalidOperation. The source
reads only req.body.status in the MEMBER branch: bundling a new title with
a valid status change succeeds and silently keeps the old title. -/
theorem c4_bundled_fields_silently_ignored :
    (putTask noFaults ⟨1, "Mem", 7, Role.MEMBER⟩
      ⟨100, 7, "Old", "", Status.TODO, Priority.MEDIUM, some 1, some 2, none, none⟩
      ⟨some "New", some "changed", some Status.IN_PROGRESS, some Priority.URGENT,
        some (some 4), some (some 9)⟩ [] 5).1 =
      Outcome.ok
        ⟨100, 7, "Old", "", Status.IN_PROGRESS, Priority.MEDIUM, some 1, some 2,
          none, none⟩ := by
  rfl

/-- C4 (amended): in the MEMBER branch of PUT /tasks/:id, any non-status
fields bundled with a status change are silently ignored — the call
succeeds and only `status` (and the derived completedAt) changes — while
InvalidOperation is returned exactly when the MEMBER request carries no
status at all. -/
theorem c4_member_updates_status_only (f : Faults) (user : User)
    (task : Task) (body : UpdateBody) (db : List User) (now : Nat)
    (hm : user.role = Role.MEMBER) (ha : task.assignedTo = some user.id) :
    (∀ s, body.status = some s → isValidTransition task.status s = true →
      task.status ≠ Status.BLOCKER →
      (putTask noFaults user task body db now).1 =
        Outcome.ok (settleCompletedAt { task with status := s } now) ∧
      (settleCompletedAt { task with status := s } now).title = task.title ∧
      (settleCompletedAt { task with status := s } now).description =
        task.description ∧
      (settleCompletedAt { task with status := s } now).priority =
        task.priority ∧
      (settleCompletedAt { task with status := s } now).assignedTo =
        task.assignedTo ∧
      (settleCompletedAt { task with status := s } now).dueDate =
        task.dueDate) ∧
    (body.status = none →
      putTask f user task body db now =
        (Outcome.err (ErrResponse.invalidOperation
          "Members can only update task status"), [])) := by
  constructor
  · intro s hs hval hblk
    have hfr := settle_frame { task with status := s } now
    refine ⟨?_, hfr.2.2.1, hfr.2.2.2.1, hfr.2.2.2.2.1, hfr.2.2.2.2.2.1,
      hfr.2.2.2.2.2.2.2⟩
    simp only [putTask, hm, if_true, memberUpdate]
    rw [if_neg (by simp [ha]), hs]
    simp only [hval, not_true_eq_false, if_false]
    rw [if_neg hblk]
    split
    · rw [notifCreate_flag noFaults _ rfl rfl]
      rfl
    · rfl
  · intro hs
    simp [putTask, memberUpdate, hm, ha, hs]

/-- C4 witness: in-progress task moved to IN_REVIEW by its MEMBER
assignee with a bundled priority change: success, priority untouched. -/
theorem c4_member_updates_status_only_witness :
    ((putTask noFaults ⟨1, "Mem", 7, Role.MEMBER⟩
      ⟨100, 7, "T", "", Status.IN_PROGRESS, Priority.MEDIUM, some 1, some 2, none, none⟩
      ⟨none, none, some Status.IN_REVIEW, some Priority.URGENT, none, none⟩
      [] 5).1 =
      Outcome.ok (settleCompletedAt
        { (⟨100, 7, "T", "", Status.IN_PROGRESS, Priority.MEDIUM, some 1, some 2,
            none, none⟩ : Task) with status := Status.IN_REVIEW } 5)) ∧
    (settleCompletedAt
      { (⟨100, 7, "T", "", Status.IN_PROGRESS, Priority.MEDIUM, some 1, some 2,
          none, none⟩ : Task) with status := Status.IN_REVIEW } 5).priority =
      Priority.MEDIUM := by
  have h := (c4_member_updates_status_only noFaults ⟨1, "Mem", 7, Role.MEMBER⟩
    ⟨100, 7, "T", "", Status.IN_PROGRESS, Priority.MEDIUM, some 1, some 2, none, none⟩
    ⟨none, none, some Status.IN_REVIEW, some Priority.URGENT, none, none⟩
    [] 5 rfl rfl).1 Status.IN_REVIEW rfl (by decide) (by decide)
  exact ⟨h.1, h.2.2.2.1⟩

/-- C5: notificationService create() with recipientId equal to triggeredBy
is a silent no-op for every fault pattern: no Notification record, no
real-time emit, no email dispatch, normal return. -/
theorem c5_self_notification_suppressed (f : Faults) (n : NotificationRec)
    (h : n.recipient = n.triggeredBy) :
    notifCreate f n = (none, [], true) := by
  unfold notifCreate
  rw [if_pos h]

/-- C5 witness. -/
theorem c5_self_notification_suppressed_witness :
    notifCreate noFaults
      ⟨3, NotifType.TASK_ASSIGNED, "m", 7, 3, some "Task", some 1⟩ =
      (none, [], true) :=
  c5_self_notification_suppressed noFaults
    ⟨3, NotifType.TASK_ASSIGNED, "m", 7, 3, some "Task", some 1⟩ rfl

/-- C7 counterexample: the claim requires the storage mutation to be
committed before any notification or activity-log write in every
successful status-change call. In the ADMIN/MANAGER combined-update
branch the activity log and the creator notification are awaited before
the final task.save(): the call succeeds but its trace has writes before
the save. -/
theorem c7_admin_path_writes_before_commit :
    ((putTask noFaults ⟨9, "Adm", 7, Role.ADMIN⟩
      ⟨100, 7, "T", "", Status.TODO, Priority.MEDIUM, none, some 2, none, none⟩
      (mkStatusBody Status.IN_PROGRESS) [] 5).1 =
      Outcome.ok
        ⟨100, 7, "T", "", Status.IN_PROGRESS, Priority.MEDIUM, none, some 2,
          none, none⟩) ∧
    savedBeforeWrites (putTask noFaults ⟨9, "Adm", 7, Role.ADMIN⟩
      ⟨100, 7, "T", "", Status.TODO, Priority.MEDIUM, none, some 2, none, none⟩
      (mkStatusBody Status.IN_PROGRESS) [] 5).2 = false := by
  exact ⟨rfl, rfl⟩

/-- C7 (amended): commit-before-side-effects holds on the MEMBER branch of
PUT /tasks/:id and on the dedicated PATCH /tasks/:id/assign (for every
fault pattern their traces start with the task save or contain no write at
all), but not on the ADMIN/MANAGER combined-update branch, which awaits
the status activity log and notifications before the final save. -/
theorem c7_commit_before_writes_member_and_assign :
    (∀ (f : Faults) (user : User) (task : Task) (body : UpdateBody)
      (db : List User) (now : Nat), user.role = Role.MEMBER →
      savedBeforeWrites (putTask f user task body db now).2 = true) ∧
    (∀ (f : Faults) (user : User) (task : Task) (assignedTo : Option Nat)
      (db : List User),
      savedBeforeWrites (patchAssign f user task assignedTo db).2 = true) := by
  constructor
  · intro f user task body db now hm
    simp only [putTask, hm, if_true]
    unfold memberUpdate
    split
    · rfl
    · split
      · split
        · rfl
        · split
          · rfl
          · split
            · rfl
            · rfl
      · rfl
  · intro f user task assignedTo db
    unfold patchAssign
    split
    · split
      · rfl
      · rfl
    · rfl

/-- C7 witness. -/
theorem c7_commit_before_writes_member_and_assign_witness :
    savedBeforeWrites (putTask noFaults ⟨1, "Mem", 7, Role.MEMBER⟩
      ⟨100, 7, "T", "", Status.TODO, Priority.MEDIUM, some 1, some 2, none, none⟩
      (mkStatusBody Status.IN_PROGRESS) [] 5).2 = true :=
  c7_commit_before_writes_member_and_assign.1 noFaults
    ⟨1, "Mem", 7, Role.MEMBER⟩
    ⟨100, 7, "T", "", Status.TODO, Priority.MEDIUM, some 1, some 2, none, none⟩
    (mkStatusBody Status.IN_PROGRESS) [] 5 rfl

theorem adminFinish_fst (f : Faults) (user : User) (t1 : Task)
    (evs : List Event) (bA : Option (Option Nat)) (db : List User) :
    (adminFinish f user t1 evs bA db).1 = (adminAssignBlock f user t1 bA db).1 := by
  unfold adminFinish
  split <;> simp_all

theorem adminAssignBlock_fst (f : Faults) (user : User) (t1 : Task)
    (bA : Option (Option Nat)) (db : List User)
    (h1 : f.notifCreateFails = false) (h2 : f.emitFails = false) :
    (adminAssignBlock f user t1 bA db).1 =
      (adminAssignBlock noFaults user t1 bA db).1 := by
  unfold adminAssignBlock
  split
  · rfl
  · split
    · rfl
    · split
      · split
        · rfl
        · simp only []
          rw [notifCreate_flag f _ h1 h2, notifCreate_flag noFaults _ rfl rfl]
      · rfl

theorem memberUpdate_fst (f : Faults) (user : User) (task : Task)
    (body : UpdateBody) (now : Nat)
    (h1 : f.notifCreateFails = false) (h2 : f.emitFails = false) :
    (memberUpdate f user task body now).1 =
      (memberUpdate noFaults user task body now).1 := by
  unfold memberUpdate
  by_cases hg : task.assignedTo ≠ some user.id
  · simp [hg]
  · rw [if_neg hg, if_neg hg]
    cases body.status with
    | none => rfl
    | some s =>
      simp only []
      by_cases hv : ¬ (isValidTransition task.status s = true)
      · simp [hv]
      · rw [if_neg hv, if_neg hv]
        by_cases hb : task.status = Status.BLOCKER
        · simp [hb]
        · rw [if_neg hb, if_neg hb]
          cases task.createdBy with
          | none => rfl
          | some c =>
            simp [notifCreate_flag f _ h1 h2, notifCreate_flag noFaults _ rfl rfl]

theorem adminUpdate_fst (f : Faults) (user : User) (task : Task)
    (body : UpdateBody) (db : List User) (now : Nat)
    (h1 : f.notifCreateFails = false) (h2 : f.emitFails = false) :
    (adminUpdate f user task body db now).1 =
      (adminUpdate noFaults user task body db now).1 := by
  unfold adminUpdate
  cases body.status with
  | none =>
    simp only []
    rw [adminFinish_fst, adminFinish_fst]
    exact adminAssignBlock_fst f user _ body.assignedTo db h1 h2
  | some s =>
    simp only []
    by_cases he : s = task.status
    · simp only [he, if_true]
      rw [adminFinish_fst, adminFinish_fst]
      exact adminAssignBlock_fst f user _ body.assignedTo db h1 h2
    · rw [if_neg he, if_neg he]
      by_cases hv : isValidTransition task.status s
      · rw [if_pos hv, if_pos hv]
        rw [adminStatusNotifs_flag f _ _ _ _ h1 h2,
          adminStatusNotifs_flag noFaults _ _ _ _ rfl rfl]
        simp only [if_true]
        rw [adminFinish_fst, adminFinish_fst]
        exact adminAssignBlock_fst f user _ body.assignedTo db h1 h2
      · rw [if_neg hv, if_neg hv]

/-- C8 counterexample: the claim says every best-effort side-effect
failure — including a failing notification persistence — is caught and the
call still succeeds. When Notification.create rejects after a MEMBER's
successful status save, the rejection propagates out of the route handler
(the task save stays committed in the trace) instead of returning the
updated task. -/
theorem c8_notification_failure_surfaces :
    ((putTask ⟨false, true, false, false⟩ ⟨1, "Mem", 7, Role.MEMBER⟩
      ⟨100, 7, "T", "", Status.TODO, Priority.MEDIUM, some 1, some 2, none, none⟩
      (mkStatusBody Status.IN_PROGRESS) [] 5).1 = Outcome.exc) ∧
    Event.saveTask
      ⟨100, 7, "T", "", Status.IN_PROGRESS, Priority.MEDIUM, some 1, some 2,
        none, none⟩ ∈
      (putTask ⟨false, true, false, false⟩ ⟨1, "Mem", 7, Role.MEMBER⟩
        ⟨100, 7, "T", "", Status.TODO, Priority.MEDIUM, some 1, some 2, none, none⟩
        (mkStatusBody Status.IN_PROGRESS) [] 5).2 := by
  constructor
  · rfl
  · decide

/-- C8 (amended): failures of the activity-log write (caught inside
logActivity) and of the email dispatch (caught inside
sendNotificationEmail, and not awaited) never change the caller-visible
outcome of PUT /tasks/:id; a failure of the notification persistence or of
the real-time emit, however, does escape (see the counterexample). -/
theorem c8_log_and_email_failures_not_surfaced (f : Faults) (user : User)
    (task : Task) (body : UpdateBody) (db : List User) (now : Nat)
    (h1 : f.notifCreateFails = false) (h2 : f.emitFails = false) :
    (putTask f user task body db now).1 =
      (putTask noFaults user task body db now).1 := by
  unfold putTask
  split
  · exact memberUpdate_fst f user task body now h1 h2
  · exact adminUpdate_fst f user task body db now h1 h2

/-- C8 witness: log-write and email failures leave the outcome unchanged. -/
theorem c8_log_and_email_failures_not_surfaced_witness :
    (putTask ⟨true, false, false, true⟩ ⟨1, "Mem", 7, Role.MEMBER⟩
      ⟨100, 7, "T", "", Status.TODO, Priority.MEDIUM, some 1, some 2, none, none⟩
      (mkStatusBody Status.IN_PROGRESS) [] 5).1 =
      (putTask noFaults ⟨1, "Mem", 7, Role.MEMBER⟩
        ⟨100, 7, "T", "", Status.TODO, Priority.MEDIUM, some 1, some 2, none, none⟩
        (mkStatusBody Status.IN_PROGRESS) [] 5).1 :=
  c8_log_and_email_failures_not_surfaced ⟨true, false, false, true⟩
    ⟨1, "Mem", 7, Role.MEMBER⟩
    ⟨100, 7, "T", "", Status.TODO, Priority.MEDIUM, some 1, some 2, none, none⟩
    (mkStatusBody Status.IN_PROGRESS) [] 5 rfl rfl

/-- C9 counterexample: the claim says the dedicated assign operation with
an unchanged assignee emits no notification and records no activity-log
entry. The source PATCH /tasks/:id/assign has no such guard: reassigning
task 100 to its current assignee 5 still saves, logs TASK_ASSIGNED and
notifies user 5. -/
theorem c9_dedicated_assign_noop_still_logs :
    patchAssign noFaults ⟨9, "Adm", 7, Role.ADMIN⟩
      ⟨100, 7, "T", "", Status.TODO, Priority.MEDIUM, some 5, some 2, none, none⟩
      (some 5) [⟨5, "Bob", 7, Role.MEMBER⟩] =
      (Outcome.ok
        ⟨100, 7, "T", "", Status.TODO, Priority.MEDIUM, some 5, some 2, none, none⟩,
       [Event.saveTask
          ⟨100, 7, "T", "", Status.TODO, Priority.MEDIUM, some 5, some 2, none, none⟩,
        Event.logEntry
          ⟨"TASK_ASSIGNED", "Task \"T\" assigned", 7, 9, "Task", 100,
            some (LogMeta.assignedMeta (some 5))⟩,
        Event.notifRecord
          ⟨5, NotifType.TASK_ASSIGNED, "Adm assigned you to \"T\"", 7, 9,
            some "Task", some 100⟩,
        Event.rtEmit 5,
        Event.emailSend 5]) := by
  rfl

/-- C9 (amended): the no-op guard on an unchanged assignee lives in the
combined PUT /tasks/:id update — which then saves but emits no log and no
notification — while the dedicated PATCH /tasks/:id/assign has no guard:
with an unchanged assignee it still saves, records a TASK_ASSIGNED
activity entry, and notifies the assignee whenever the assignee is not the
actor. -/
theorem c9_noop_guard_in_combined_update_only (user : User) (task : Task)
    (db : List User) (now : Nat) (a : Nat)
    (hcur : task.assignedTo = some a)
    (hdb : (findUser db a user.companyId).isSome = true) :
    ((patchAssign noFaults user task (some a) db).1 =
      Outcome.ok { task with assignedTo := some a } ∧
     (∃ e, Event.logEntry e ∈ (patchAssign noFaults user task (some a) db).2 ∧
        e.action = "TASK_ASSIGNED") ∧
     (user.id ≠ a →
       (a, NotifType.TASK_ASSIGNED) ∈
         notifRecsOf (patchAssign noFaults user task (some a) db).2)) ∧
    (user.role ≠ Role.MEMBER →
      putTask noFaults user task (mkAssignBody task.assignedTo) db now =
        (Outcome.ok task, [Event.saveTask task])) := by
  obtain ⟨u, hu⟩ := Option.isSome_iff_exists.mp hdb
  constructor
  · refine ⟨?_, ?_, ?_⟩
    · simp [patchAssign, hu, notifCreate_flag noFaults _ rfl rfl]
    · refine ⟨⟨"TASK_ASSIGNED", "Task \"" ++ task.title ++ "\" assigned",
        user.companyId, user.id, "Task", task.id,
        some (LogMeta.assignedMeta (some a))⟩, ?_, rfl⟩
      simp [patchAssign, hu, logActivity, noFaults]
    · intro hne
      simp [patchAssign, hu, logActivity, noFaults, notifCreate, notifRecsOf,
        taskAssignedArgs, Ne.symm hne]
  · intro hm
    rw [putTask, if_neg hm]
    unfold adminUpdate adminFinish adminAssignBlock
    simp [mkAssignBody, applyFieldUpdates, hcur]
    rw [← hcur]

/-- C9 witness. -/
theorem c9_noop_guard_in_combined_update_only_witness :
    ((patchAssign noFaults ⟨9, "Adm", 7, Role.ADMIN⟩
        ⟨100, 7, "T", "", Status.TODO, Priority.MEDIUM, some 5, some 2, none, none⟩
        (some 5) [⟨5, "Bob", 7, Role.MEMBER⟩]).1 =
      Outcome.ok
        { (⟨100, 7, "T", "", Status.TODO, Priority.MEDIUM, some 5, some 2, none,
            none⟩ : Task) with assignedTo := some 5 }) ∧
    (putTask noFaults ⟨9, "Adm", 7, Role.ADMIN⟩
      ⟨100, 7, "T", "", Status.TODO, Priority.MEDIUM, some 5, some 2, none, none⟩
      (mkAssignBody (some 5)) [⟨5, "Bob", 7, Role.MEMBER⟩] 5 =
      (Outcome.ok
        ⟨100, 7, "T", "", Status.TODO, Priority.MEDIUM, some 5, some 2, none, none⟩,
       [Event.saveTask
        ⟨100, 7, "T", "", Status.TODO, Priority.MEDIUM, some 5, some 2, none, none⟩])) := by
  have h := c9_noop_guard_in_combined_update_only ⟨9, "Adm", 7, Role.ADMIN⟩
    ⟨100, 7, "T", "", Status.TODO, Priority.MEDIUM, some 5, some 2, none, none⟩
    [⟨5, "Bob", 7, Role.MEMBER⟩] 5 5 rfl (by decide)
  exact ⟨h.1.1, h.2 (by decide)⟩

theorem mem_dedupFirst (seen : List Nat) (l : List Nat) (a : Nat) :
    a ∈ dedupFirst seen l ↔ a ∈ l ∧ a ∉ seen := by
  induction l generalizing seen with
  | nil => simp [dedupFirst]
  | cons x xs ih =>
    unfold dedupFirst
    by_cases hx : x ∈ seen
    · rw [if_pos hx, ih]
      constructor
      · rintro ⟨hm, hns⟩
        exact ⟨List.mem_cons_of_mem _ hm, hns⟩
      · rintro ⟨hm, hns⟩
        rcases List.mem_cons.mp hm with h | h
        · subst h
          exact absurd hx hns
        · exact ⟨h, hns⟩
    · rw [if_neg hx]
      simp only [List.mem_cons, ih]
      constructor
      · rintro (h | ⟨hm, hns⟩)
        · subst h
          exact ⟨Or.inl rfl, hx⟩
        · exact ⟨Or.inr hm, fun hs => hns (Or.inr hs)⟩
      · rintro ⟨h | hm, hns⟩
        · exact Or.inl h
        · by_cases hax : a = x
          · exact Or.inl hax
          · exact Or.inr ⟨hm, fun hs => hs.elim hax hns⟩

theorem nodup_dedupFirst (seen : List Nat) (l : List Nat) :
    (dedupFirst seen l).Nodup := by
  induction l generalizing seen with
  | nil => simp [dedupFirst]
  | cons x xs ih =>
    unfold dedupFirst
    by_cases hx : x ∈ seen
    · rw [if_pos hx]
      exact ih seen
    · rw [if_neg hx]
      refine List.nodup_cons.mpr ⟨fun hmem => ?_, ih (x :: seen)⟩
      exact ((mem_dedupFirst _ _ _).mp hmem).2 (List.mem_cons_self x seen)

theorem resolveMentions_nodup (text : String) (cid : Nat) (db : List User) :
    (resolveMentions text cid db).Nodup := by
  unfold resolveMentions
  simp only []
  split
  · exact List.nodup_nil
  · exact nodup_dedupFirst _ _

theorem mem_resolveMentions (text : String) (cid : Nat) (db : List User)
    (i : Nat) :
    i ∈ resolveMentions text cid db ↔
      ∃ u ∈ db, u.companyId = cid ∧ u.id = i ∧
        ∃ n ∈ extractNames text.data, lowerEq u.name n = true := by
  unfold resolveMentions
  simp only []
  split
  · rename_i hnames
    simp [hnames]
  · rw [mem_dedupFirst]
    simp [List.mem_filter, List.mem_map, Bool.and_eq_true, beq_iff_eq,
      List.any_eq_true]
    constructor
    · rintro ⟨u, ⟨⟨hu, hcid, n, hn, hmatch⟩, hid⟩⟩
      exact ⟨u, hu, hcid, hid, n, hn, hmatch⟩
    · rintro ⟨u, hu, hcid, hid, n, hn, hmatch⟩
      exact ⟨u, ⟨⟨hu, hcid, n, hn, hmatch⟩, hid⟩⟩

/-- C10: mention resolution scans the text left-to-right for @"Full Name"
and @word tokens, matches each token by exact case-insensitive equality
against the full name field of the tenant's members (every matching member
is included), and returns a de-duplicated id list, so each member id
occurs at most once however often it is mentioned; on the sample text the
scanner extracts exactly ["Bob Jones", "alice"], and a text mentioning
@"Jane Doe" twice resolves to Jane Doe's id exactly once. -/
theorem c10_mention_resolution (text : String) (cid : Nat) (db : List User) :
    (resolveMentions text cid db).Nodup ∧
    (∀ i, i ∈ resolveMentions text cid db ↔
      ∃ u ∈ db, u.companyId = cid ∧ u.id = i ∧
        ∃ n ∈ extractNames text.data, lowerEq u.name n = true) ∧
    (∀ i, (resolveMentions text cid db).count i ≤ 1) ∧
    extractNames ("Great work @\"Bob Jones\" and @alice!".data) =
      ["Bob Jones", "alice"] ∧
    resolveMentions "ping @\"Jane Doe\" again @\"Jane Doe\"" 7
      [⟨31, "Jane Doe", 7, Role.MEMBER⟩] = [31] := by
  refine ⟨resolveMentions_nodup text cid db,
    fun i => mem_resolveMentions text cid db i,
    fun i => List.nodup_iff_count_le_one.mp (resolveMentions_nodup text cid db) i,
    ?_, ?_⟩
  · rfl
  · rfl

theorem mem_mentionPending (uid : Nat) (listed pending : List Nat) (m : Nat) :
    m ∈ mentionPending uid listed pending ↔
      m ∈ pending ∧ m ∉ listed ∧ m ≠ uid := by
  simp [mentionPending, List.mem_filter]

theorem mem_alreadyNotified (task : Task) (user : User) (m : Nat) :
    m ∈ alreadyNotified task user ↔
      task.assignedTo = some m ∨ task.createdBy = some m ∨ m = user.id := by
  simp [alreadyNotified, List.mem_filterMap, eq_comm]

theorem notifRecsOf_append (a b : List Event) :
    notifRecsOf (a ++ b) = notifRecsOf a ++ notifRecsOf b := by
  induction a with
  | nil => rfl
  | cons e rest ih =>
    cases e <;> simp [notifRecsOf, ih]

theorem notifRecsOf_notifCreate (n : NotificationRec) :
    notifRecsOf (notifCreate noFaults n).2.1 =
      if n.recipient = n.triggeredBy then [] else [(n.recipient, n.ntype)] := by
  by_cases h : n.recipient = n.triggeredBy <;>
    simp [notifCreate, noFaults, h, notifRecsOf]

theorem notifCreate_noFaults_flag (n : NotificationRec) :
    (notifCreate noFaults n).2.2 = true :=
  notifCreate_flag noFaults n rfl rfl

theorem noFaults_log : noFaults.logCreateFails = false := rfl

theorem mentionNotifs_trace (user : User) (task : Task)
    (listed pending : List Nat) :
    (mentionNotifs noFaults user task listed pending).2 = true ∧
    notifRecsOf (mentionNotifs noFaults user task listed pending).1 =
      (mentionPending user.id listed pending).map
        (fun m => (m, NotifType.COMMENT_MENTIONED)) := by
  induction pending with
  | nil => exact ⟨rfl, rfl⟩
  | cons m rest ih =>
    unfold mentionNotifs
    by_cases hm : m ∈ listed
    · rw [if_pos hm]
      refine ⟨ih.1, ?_⟩
      rw [ih.2]
      simp [mentionPending, List.filter_cons, hm]
    · rw [if_neg hm]
      simp only []
      rw [if_pos (notifCreate_noFaults_flag (commentMentionedArgs task user m))]
      refine ⟨ih.1, ?_⟩
      rw [notifRecsOf_append, ih.2, notifRecsOf_notifCreate]
      by_cases hmu : m = user.id
      · simp [commentMentionedArgs, hmu, mentionPending, List.filter_cons, hm]
      · simp [commentMentionedArgs, hmu, mentionPending, List.filter_cons, hm]

theorem postComment_notifs (user : User) (task : Task) (newId : Nat)
    (text : String) (db : List User) :
    notifRecsOf (postComment noFaults user task newId text db).2 =
      (match task.assignedTo with
        | some a =>
          if a = user.id then [] else [(a, NotifType.COMMENT_ADDED)]
        | none => []) ++
      (match task.createdBy with
        | some cr =>
          if some cr ≠ task.assignedTo then
            (if cr = user.id then [] else [(cr, NotifType.COMMENT_ADDED)])
          else []
        | none => []) ++
      (mentionPending user.id (alreadyNotified task user)
        (resolveMentions text user.companyId db)).map
        (fun m => (m, NotifType.COMMENT_MENTIONED)) := by
  obtain ⟨hflag, hrecs⟩ := mentionNotifs_trace user task
    (alreadyNotified task user) (resolveMentions text user.companyId db)
  unfold postComment
  simp only []
  cases ha : task.assignedTo with
  | none =>
    cases hc : task.createdBy with
    | none =>
      simp [logActivity, noFaults_log, notifRecsOf, hrecs]
    | some cr =>
      simp [notifCreate_noFaults_flag, logActivity, noFaults_log, notifRecsOf,
        notifRecsOf_append, notifRecsOf_notifCreate, commentAddedArgs, hrecs]
  | some a =>
    cases hc : task.createdBy with
    | none =>
      simp [notifCreate_noFaults_flag, logActivity, noFaults_log, notifRecsOf,
        notifRecsOf_append, notifRecsOf_notifCreate, commentAddedArgs, hrecs]
    | some cr =>
      by_cases hca : cr = a
      · subst hca
        simp [notifCreate_noFaults_flag, logActivity, noFaults_log, notifRecsOf,
          notifRecsOf_append, notifRecsOf_notifCreate, commentAddedArgs, hrecs]
      · simp [notifCreate_noFaults_flag, logActivity, noFaults_log, notifRecsOf,
          notifRecsOf_append, notifRecsOf_notifCreate, commentAddedArgs, hrecs,
          hca]

theorem postComment_recipients_nodup (user : User) (task : Task)
    (newId : Nat) (text : String) (db : List User) :
    ((notifRecsOf (postComment noFaults user task newId text db).2).map
      Prod.fst).Nodup := by
  rw [postComment_notifs]
  simp only [List.map_append, List.map_map]
  have hid : (Prod.fst ∘ fun m : Nat => (m, NotifType.COMMENT_MENTIONED)) = id :=
    rfl
  rw [hid, List.map_id]
  have hmpd : (mentionPending user.id (alreadyNotified task user)
      (resolveMentions text user.companyId db)).Nodup :=
    (resolveMentions_nodup text user.companyId db).filter _
  have hmem : ∀ x ∈ mentionPending user.id (alreadyNotified task user)
      (resolveMentions text user.companyId db),
      x ∉ alreadyNotified task user := by
    intro x hx
    exact ((mem_mentionPending _ _ _ x).mp hx).2.1
  cases ha : task.assignedTo with
  | none =>
    cases hc : task.createdBy with
    | none =>
      simpa [List.map_map, Function.comp] using hmpd
    | some cr =>
      by_cases hcu : cr = user.id
      · simp only [ne_eq, not_true_eq_false, if_false, hcu, if_true,
          Option.some.injEq]
        simpa [List.map_map, Function.comp, hcu] using hmpd
      · have hcr : cr ∉ mentionPending user.id (alreadyNotified task user)
            (resolveMentions text user.companyId db) := by
          intro hin
          exact hmem cr hin ((mem_alreadyNotified task user cr).mpr
            (Or.inr (Or.inl hc)))
        simp [List.nodup_append, List.map_map, Function.comp, hcu, hmpd, hcr]
  | some a =>
    have haN : a ∉ mentionPending user.id (alreadyNotified task user)
        (resolveMentions text user.companyId db) := by
      intro hin
      exact hmem a hin ((mem_alreadyNotified task user a).mpr (Or.inl ha))
    by_cases hau : a = user.id
    · -- assignee is the author: no assignee notification
      cases hc : task.createdBy with
      | none =>
        simp only [hau, if_pos rfl]
        simpa [List.map_map, Function.comp] using hmpd
      | some cr =>
        by_cases hca : (some cr : Option Nat) = some a
        · simp only [hau, if_pos rfl, hca, ne_eq, not_true_eq_false, if_false]
          simpa [List.map_map, Function.comp] using hmpd
        · by_cases hcu : cr = user.id
          · simp only [hau, if_pos rfl, ne_eq, hca, not_false_eq_true, if_true,
              hcu, if_pos rfl]
            simpa [List.map_map, Function.comp] using hmpd
          · have hcr : cr ∉ mentionPending user.id (alreadyNotified task user)
                (resolveMentions text user.companyId db) := by
              intro hin
              exact hmem cr hin ((mem_alreadyNotified task user cr).mpr
                (Or.inr (Or.inl hc)))
            simp [List.nodup_append, List.map_map, Function.comp, hau, hca,
              hcu, hmpd, hcr]
    · cases hc : task.createdBy with
      | none =>
        simp [List.nodup_append, List.map_map, Function.comp, hau, hmpd, haN]
      | some cr =>
        by_cases hca : (some cr : Option Nat) = some a
        · simp [List.nodup_append, List.map_map, Function.comp, hau, hca,
            hmpd, haN]
        · by_cases hcu : cr = user.id
          · simp [List.nodup_append, List.map_map, Function.comp, hau, hca,
              hcu, hmpd, haN]
          · have hcr : cr ∉ mentionPending user.id (alreadyNotified task user)
                (resolveMentions text user.companyId db) := by
              intro hin
              exact hmem cr hin ((mem_alreadyNotified task user cr).mpr
                (Or.inr (Or.inl hc)))
            have hac : a ≠ cr := fun h => hca (by rw [h])
            simp [List.nodup_append, List.map_map, Function.comp, hau, hca,
              hcu, hmpd, haN, hcr, List.disjoint_left, hac]

theorem mem_assigneeRecs (task : Task) (user : User) (r : Nat)
    (ty : NotifType) :
    (r, ty) ∈ (match task.assignedTo with
      | some a =>
        if a = user.id then [] else [(a, NotifType.COMMENT_ADDED)]
      | none => ([] : List (Nat × NotifType))) ↔
      ty = NotifType.COMMENT_ADDED ∧ task.assignedTo = some r ∧
        r ≠ user.id := by
  split
  · rename_i a heq
    rw [heq]
    by_cases hau : a = user.id
    · rw [if_pos hau]
      constructor
      · intro h
        exact absurd h (List.not_mem_nil _)
      · rintro ⟨-, h1, h2⟩
        exact absurd ((Option.some_injective _ h1).symm.trans hau) h2
    · rw [if_neg hau]
      simp only [List.mem_singleton, Prod.mk.injEq]
      constructor
      · rintro ⟨h1, h2⟩
        exact ⟨h2, by rw [h1], fun hx => hau (h1.symm.trans hx)⟩
      · rintro ⟨h1, h2, h3⟩
        exact ⟨(Option.some_injective _ h2).symm, h1⟩
  · rename_i heq
    rw [heq]
    simp

theorem mem_creatorRecs (task : Task) (user : User) (r : Nat)
    (ty : NotifType) :
    (r, ty) ∈ (match task.createdBy with
      | some cr =>
        if some cr ≠ task.assignedTo then
          (if cr = user.id then [] else [(cr, NotifType.COMMENT_ADDED)])
        else []
      | none => ([] : List (Nat × NotifType))) ↔
      ty = NotifType.COMMENT_ADDED ∧ task.createdBy = some r ∧
        task.assignedTo ≠ some r ∧ r ≠ user.id := by
  split
  · rename_i cr heq
    rw [heq]
    by_cases hca : (some cr : Option Nat) = task.assignedTo
    · rw [if_neg (not_not_intro hca)]
      constructor
      · intro h
        exact absurd h (List.not_mem_nil _)
      · rintro ⟨-, h1, h2, -⟩
        exact absurd (hca.symm.trans h1) h2
    · by_cases hcu : cr = user.id
      · rw [if_pos hca, if_pos hcu]
        constructor
        · intro h
          exact absurd h (List.not_mem_nil _)
        · rintro ⟨-, h1, -, h2⟩
          exact absurd ((Option.some_injective _ h1).symm.trans hcu) h2
      · rw [if_pos hca, if_neg hcu]
        simp only [List.mem_singleton, Prod.mk.injEq]
        constructor
        · rintro ⟨h1, h2⟩
          subst h1
          exact ⟨h2, rfl, fun hx => hca hx.symm, hcu⟩
        · rintro ⟨h1, h2, h3, h4⟩
          exact ⟨(Option.some_injective _ h2).symm, h1⟩
  · rename_i heq
    rw [heq]
    simp

theorem mem_mentionRecs (task : Task) (user : User) (text : String)
    (db : List User) (r : Nat) (ty : NotifType) :
    (r, ty) ∈ (mentionPending user.id (alreadyNotified task user)
        (resolveMentions text user.companyId db)).map
        (fun m => (m, NotifType.COMMENT_MENTIONED)) ↔
      ty = NotifType.COMMENT_MENTIONED ∧
        r ∈ resolveMentions text user.companyId db ∧ r ≠ user.id ∧
        task.assignedTo ≠ some r ∧ task.createdBy ≠ some r := by
  simp only [List.mem_map, Prod.mk.injEq]
  constructor
  · rintro ⟨m, hm, hm1, hm2⟩
    obtain ⟨hres, hnal, hnu⟩ := (mem_mentionPending _ _ _ m).mp hm
    rw [mem_alreadyNotified] at hnal
    push_neg at hnal
    subst hm1
    exact ⟨hm2.symm, hres, hnu, hnal.1, hnal.2.1⟩
  · rintro ⟨hty, hres, hnu, hna, hnc⟩
    refine ⟨r, (mem_mentionPending _ _ _ r).mpr ⟨hres, ?_, hnu⟩, rfl, hty.symm⟩
    rw [mem_alreadyNotified]
    push_neg
    exact ⟨hna, hnc, hnu⟩

/-- C6: for every comment created on a task, the fanout notifies the
assignee (COMMENT_ADDED, when present and not the author), the creator
(COMMENT_ADDED, when present, distinct from the assignee and not the
author), and every resolved mention outside {author, assignee, creator}
(COMMENT_MENTIONED); each distinct recipient receives at most one
notification for the single comment-creation event, even when a recipient
is simultaneously the assignee and a mentioned name. -/
theorem c6_comment_fanout (user : User) (task : Task) (newId : Nat)
    (text : String) (db : List User) :
    ((notifRecsOf (postComment noFaults user task newId text db).2).map
      Prod.fst).Nodup ∧
    ∀ r ty,
      (r, ty) ∈ notifRecsOf (postComment noFaults user task newId text db).2 ↔
        (ty = NotifType.COMMENT_ADDED ∧ task.assignedTo = some r ∧
          r ≠ user.id) ∨
        (ty = NotifType.COMMENT_ADDED ∧ task.createdBy = some r ∧
          task.assignedTo ≠ some r ∧ r ≠ user.id) ∨
        (ty = NotifType.COMMENT_MENTIONED ∧
          r ∈ resolveMentions text user.companyId db ∧ r ≠ user.id ∧
          task.assignedTo ≠ some r ∧ task.createdBy ≠ some r) := by
  refine ⟨postComment_recipients_nodup user task newId text db, ?_⟩
  intro r ty
  rw [postComment_notifs]
  simp only [List.mem_append, mem_assigneeRecs, mem_creatorRecs,
    mem_mentionRecs, or_assoc]

end TaskMgr
